import Mathlib

/-!
Verification development for the pebble-migrate schema-migration engine.

Shallow embedding of the Go sources (migration.go, schema.go, registry.go,
engine.go, startup.go) as executable Lean definitions, followed by theorems
about the embedded operations.

Modelling conventions:
* Go `int64` versions are Lean `Int` (the `strconv.ParseInt` overflow bound
  is checked explicitly where the source checks it).
* Go `map[string]bool` sets are `List String` key lists: insertion appends
  the key when absent, deletion removes every occurrence, lookup is
  membership.  All set-valued computations the claims touch (membership,
  maximum over the set) are iteration-order independent, except for the
  ready-set seeding of the topological sort, where Go map iteration order is
  observable; there the order is an explicit parameter (see `topologicalSort`).
* `time.Now()` values and durations are threaded as explicit parameters.
* The pebble store is a record holding the decoded `__schema_version__`
  document plus the list of other keys; user callback bodies are opaque and
  are modelled by an environment of success/failure outcomes.
* Error messages keep the Go text, except that the single-quote characters
  the Go format strings put around identifiers are omitted.
-/

namespace Migrate

/-- Status of the persisted schema record (`Status` in migration.go). -/
inductive Status where
  | clean
  | migrating
  | dirty
  | rollback
  deriving DecidableEq

/-- One migration-history entry (`MigrationRecord` in migration.go).
`appliedAt` stands for the `time.Time` field. -/
structure MigrationRecord where
  id : String
  description : String
  appliedAt : Nat
  duration : String
  success : Bool
  error : String
  deriving DecidableEq

/-- A declared migration (`Migration` in migration.go).  The `Up`, `Down`
and `Validate` callbacks are opaque Go functions; only their presence
(nil-ness) is part of the data, their outcomes live in `Env`. -/
structure Migration where
  id : String
  version : Int
  dependencies : List String
  description : String
  hasUp : Bool
  hasDown : Bool
  hasValidate : Bool
  rerunnable : Bool
  deriving DecidableEq

/-- Placeholder used where Go would index a map whose key is known to be
present (`migrationMap[dependent]`). -/
def dummyMigration : Migration :=
  ⟨"", 0, [], "", false, false, false, false⟩

/-- The persisted catalog record (`SchemaVersion` in migration.go). -/
structure SchemaVersion where
  currentVersion : Int
  appliedMigrations : List String
  migrationHistory : List MigrationRecord
  lastMigrationAt : Nat
  status : Status
  deriving DecidableEq

/-- Go `map[string]bool` insertion with value `true` (a set insert). -/
def insertSet (l : List String) (x : String) : List String :=
  if l.contains x then l else l ++ [x]

/-- Go `delete(map, x)`. -/
def removeSet (l : List String) (x : String) : List String :=
  l.filter (fun y => y != x)

/-! ## Migration-ID parsing (`ParseMigrationVersion`) -/

/-- `strings.SplitN(s, "_", 2)`: split a character list at the first
underscore; `none` when there is no underscore (Go returns a one-element
slice in that case). -/
def splitFirstUnderscore : List Char → Option (List Char × List Char)
  | [] => none
  | c :: cs =>
    if c = '_' then some ([], cs)
    else (splitFirstUnderscore cs).map (fun p => (c :: p.1, p.2))

/-- Decimal digit value of an ASCII character. -/
def digitVal (c : Char) : Nat := c.toNat - 48

/-- `strconv.ParseInt(s, 10, 64)`: optional sign, one or more ASCII digits,
value within the `int64` range; `none` on any parse failure (including
overflow, which ParseInt reports as an error). -/
def parseGoInt64 (s : String) : Option Int :=
  let signSplit : Bool × List Char :=
    match s.data with
    | '+' :: rest => (false, rest)
    | '-' :: rest => (true, rest)
    | l => (false, l)
  let neg := signSplit.1
  let digits := signSplit.2
  if digits.isEmpty then none
  else if digits.all Char.isDigit then
    let n : Nat := digits.foldl (fun acc c => acc * 10 + digitVal c) 0
    let v : Int := if neg then -(n : Int) else (n : Int)
    if -(2 ^ 63) ≤ v ∧ v ≤ 2 ^ 63 - 1 then some v else none
  else none

/-- `ParseMigrationVersion` (migration.go): split on the first underscore,
parse the first field as a decimal integer, and require it to lie in the
Unix-timestamp range for the years 2000-2100.  Note the second field is not
inspected at all. -/
def parseMigrationVersion (migrationID : String) : Except String Int :=
  match splitFirstUnderscore migrationID.data with
  | none => .error "migration ID must follow format <timestamp>_<description>"
  | some parts =>
    match parseGoInt64 (String.mk parts.1) with
    | none => .error "invalid timestamp in migration ID"
    | some version =>
      if version < 946684800 ∨ version > 4102444800 then
        .error "timestamp is outside valid range (2000-2100)"
      else
        .ok version

/-! ## Registry (`MigrationRegistry`, `Register`) -/

/-- `MigrationRegistry`: the `migrations` map is an association list keyed
by ID, `ordered` is the version-sorted slice. -/
structure MigrationRegistry where
  migrations : List (String × Migration)
  ordered : List Migration
  deriving DecidableEq

def emptyRegistry : MigrationRegistry := ⟨[], []⟩

/-- Lookup in the registry map (`r.migrations[id]`). -/
def regLookup (r : MigrationRegistry) (id : String) : Option Migration :=
  (r.migrations.find? (fun p => p.1 == id)).map (fun p => p.2)

/-- The back-to-front bubbling loop of `Register`, acting on the reversed
list: the freshly appended migration moves left past every neighbour with a
strictly larger version and stops at the first one that is not larger. -/
def bubbleIn (m : Migration) : List Migration → List Migration
  | [] => [m]
  | x :: xs =>
    if m.version < x.version then x :: bubbleIn m xs
    else m :: x :: xs

/-- `r.ordered = append(r.ordered, m)` followed by the bubbling loop. -/
def insertOrdered (l : List Migration) (m : Migration) : List Migration :=
  (bubbleIn m l.reverse).reverse

/-- `Register` (migration.go): reject duplicates, empty IDs, missing Up or
Down callbacks and unparsable IDs, then store the migration with its version
re-derived from the ID. -/
def register (r : MigrationRegistry) (m : Migration) : Except String MigrationRegistry :=
  if (regLookup r m.id).isSome then
    .error ("migration with ID " ++ m.id ++ " already registered")
  else if m.id = "" then
    .error "migration ID cannot be empty"
  else if !m.hasUp then
    .error ("migration " ++ m.id ++ " must have an Up function")
  else if !m.hasDown then
    .error ("migration " ++ m.id ++ " must have a Down function")
  else
    match parseMigrationVersion m.id with
    | .error e => .error ("invalid migration ID format " ++ m.id ++ ": " ++ e)
    | .ok version =>
      let m2 := { m with version := version }
      .ok { migrations := r.migrations ++ [(m2.id, m2)]
            ordered := insertOrdered r.ordered m2 }

/-- Register a list of migrations left to right. -/
def registerAll (ms : List Migration) : Except String MigrationRegistry :=
  ms.foldlM register emptyRegistry

/-- `GetMigrationsInVersionRange` (migration.go): both bounds inclusive,
in `ordered` (version) order. -/
def getMigrationsInVersionRange (r : MigrationRegistry) (fromVersion toVersion : Int) :
    List Migration :=
  r.ordered.filter (fun m => fromVersion ≤ m.version && m.version ≤ toVersion)

/-! ## Topological sort (`topologicalSort`, `GetPendingMigrations`)

The Go function builds `graph` (successors), `inDegree` and `migrationMap`
in one pass over the pending slice, returning an error for dangling
dependencies.  The single pass is decomposed here into `checkDeps` (the
error cases), `graphSucc` and `inDegreeOf` (the accumulated values); each
enumerates the same (migration, dependency) pairs in the same order.

The seeding loop `for id, degree := range inDegree` iterates a Go map, whose
order is unspecified and randomized at runtime.  That order is the explicit
parameter `pi`: a permutation of the pending IDs (the keys of `inDegree`),
and the initial ready slice lists the zero-in-degree nodes in `pi` order.
Everything after the seeding is order-deterministic (slices only). -/

/-- Lookup in the pending-migration map (`migrationMap[id]`). -/
def lookupMig (migs : List Migration) (id : String) : Option Migration :=
  migs.find? (fun m => m.id == id)

/-- The error checks of the edge-building loop: for each pending migration
and each of its dependencies that is not applied, the dependency must be
pending; otherwise the loop fails (distinguishing unknown IDs from
known-but-neither-applied-nor-pending ones). -/
def checkDeps (r : MigrationRegistry) (migs : List Migration) (applied : List String) :
    Except String Unit :=
  migs.forM (fun m =>
    m.dependencies.forM (fun depID =>
      if applied.contains depID then .ok ()
      else if (lookupMig migs depID).isSome then .ok ()
      else if (regLookup r depID).isNone then
        .error ("migration " ++ m.id ++ " depends on non-existent migration " ++ depID)
      else
        .error ("migration " ++ m.id ++ " depends on " ++ depID ++
          " which is neither applied nor pending")))

/-- Successor list `graph[d]`: the IDs of pending migrations appended, in
pass order, once per occurrence of `d` among their not-applied pending
dependencies. -/
def graphSucc (migs : List Migration) (applied : List String) (d : String) : List String :=
  migs.foldl (fun acc m =>
    acc ++ (m.dependencies.filter
      (fun depID => depID == d && !applied.contains depID &&
        (lookupMig migs depID).isSome)).map (fun _ => m.id)) []

/-- `inDegree[id]`: the number of not-applied pending dependencies of the
pending migration `id` (0 for unknown IDs, matching the map default). -/
def inDegreeOf (migs : List Migration) (applied : List String) (id : String) : Nat :=
  match lookupMig migs id with
  | none => 0
  | some m =>
    (m.dependencies.filter
      (fun depID => !applied.contains depID && (lookupMig migs depID).isSome)).length

/-- The seeding predicate: keys of `inDegree` with degree zero. -/
def seedFilter (migs : List Migration) (applied : List String) (id : String) : Bool :=
  inDegreeOf migs applied id == 0

/-- `ready[i].Version` with Go's zero default out of range (only read in
range). -/
def versionAt (a : List Migration) (i : Nat) : Int :=
  ((a.get? i).map Migration.version).getD 0

/-- Swap two in-range positions of the ready slice. -/
def swapAt (a : List Migration) (i j : Nat) : List Migration :=
  match a.get? i, a.get? j with
  | some x, some y => (a.set i y).set j x
  | _, _ => a

/-- Inner loop of the ready-slice sort: `for j := i+1; j < len; j++`
swapping whenever `ready[i].Version > ready[j].Version`.  Fuel bounds the
iteration count; it is called with fuel ≥ the slice length, which is exact
because swapping preserves the length. -/
def sortInner : Nat → List Migration → Nat → Nat → List Migration
  | 0, a, _, _ => a
  | fuel + 1, a, i, j =>
    if j < a.length then
      sortInner fuel (if versionAt a i > versionAt a j then swapAt a i j else a) i (j + 1)
    else a

/-- Outer loop: `for i := 0; i < len-1; i++`. -/
def sortOuter : Nat → List Migration → Nat → List Migration
  | 0, a, _ => a
  | fuel + 1, a, i =>
    if i < a.length - 1 then sortOuter fuel (sortInner a.length a i (i + 1)) (i + 1)
    else a

/-- The in-place ready-slice sort of `topologicalSort` (ascending version;
note there is no identifier tie-break, and the swap-based selection is not
stable for equal versions). -/
def goSortReady (a : List Migration) : List Migration :=
  sortOuter a.length a 0

/-- Kahn loop: sort the ready slice, pop its head, append it to the output,
decrement the in-degree of each successor and append those that reach zero.
Fuel bounds the emission count; `migrations.length` is exact because every
pending node enters the ready slice at most once. -/
def kahnLoop (graph : String → List String) (mMap : String → Option Migration) :
    Nat → (String → Nat) → List Migration → List Migration → List Migration
  | 0, _, _, sorted => sorted
  | fuel + 1, inDeg, ready, sorted =>
    match goSortReady ready with
    | [] => sorted
    | current :: rest =>
      let step := (graph current.id).foldl
        (fun (st : (String → Nat) × List Migration) dep =>
          let d := st.1 dep - 1
          ((fun id => if id = dep then d else st.1 id),
           if d = 0 then st.2 ++ (mMap dep).toList else st.2))
        (inDeg, rest)
      kahnLoop graph mMap fuel step.1 step.2 (sorted ++ [current])

/-- Everything after the (checked) edge building: seed the ready slice from
the zero-in-degree keys in `seedIds` order, run the Kahn loop, and fail on a
cycle when fewer nodes were emitted than are pending.  (Go also lists the
residual-in-degree nodes, in map order, inside the cycle message; the list
is omitted here.) -/
def kahnRun (migs : List Migration) (applied : List String) (seedIds : List String) :
    Except String (List Migration) :=
  let ready := seedIds.map (fun id => (lookupMig migs id).getD dummyMigration)
  let sorted := kahnLoop (graphSucc migs applied) (lookupMig migs)
    migs.length (inDegreeOf migs applied) ready []
  if sorted.length = migs.length then .ok sorted
  else .error "circular dependency detected involving migrations"

/-- `topologicalSort` (migration.go), with the map-iteration order `pi`. -/
def topologicalSort (r : MigrationRegistry) (migs : List Migration)
    (applied : List String) (pi : List String) : Except String (List Migration) :=
  if migs.isEmpty then .ok migs
  else
    match checkDeps r migs applied with
    | .error e => .error e
    | .ok _ => kahnRun migs applied (pi.filter (seedFilter migs applied))

/-- The pending-collection loop of `GetPendingMigrations`: registry order
with applied IDs skipped. -/
def pendingList (r : MigrationRegistry) (applied : List String) : List Migration :=
  r.ordered.filter (fun m => !applied.contains m.id)

/-- `GetPendingMigrations` (migration.go). -/
def getPendingMigrations (r : MigrationRegistry) (applied : List String)
    (pi : List String) : Except String (List Migration) :=
  match topologicalSort r (pendingList r applied) applied pi with
  | .error e => .error ("failed to sort migrations by dependencies: " ++ e)
  | .ok sorted => .ok sorted

/-! ## Catalog operations on the schema record (schema.go)

Each Go method reads the record, mutates it and writes it back; the pure
record-to-record transformation is embedded here, with `now` standing for
`time.Now()` and `duration` for the formatted duration string. -/

/-- The record `GetSchemaVersion` returns when the reserved key is absent. -/
def zeroRecord : SchemaVersion :=
  ⟨0, [], [], 0, .clean⟩

/-- `UpdateSchemaAfterMigration` (schema.go). -/
def updateSchemaAfterMigration (sv : SchemaVersion) (migrationID : String)
    (version : Int) (description : String) (duration : String) (now : Nat) : SchemaVersion :=
  { currentVersion :=
      if version > sv.currentVersion then version else sv.currentVersion
    appliedMigrations := insertSet sv.appliedMigrations migrationID
    migrationHistory :=
      sv.migrationHistory ++ [⟨migrationID, description, now, duration, true, ""⟩]
    lastMigrationAt := now
    status := .clean }

/-- `MarkMigrationStarted` (schema.go). -/
def markMigrationStarted (sv : SchemaVersion) : SchemaVersion :=
  { sv with status := .migrating }

/-- `MarkRollbackStarted` (schema.go). -/
def markRollbackStarted (sv : SchemaVersion) : SchemaVersion :=
  { sv with status := .rollback }

/-- `MarkMigrationFailed` (schema.go). -/
def markMigrationFailed (sv : SchemaVersion) (migrationID : String)
    (description : String) (errMsg : String) (now : Nat) : SchemaVersion :=
  { sv with
    migrationHistory := sv.migrationHistory ++
      [⟨migrationID, description ++ " (FAILED)", now, "0s", false, errMsg⟩]
    lastMigrationAt := now
    status := .dirty }

/-- One step of the maximum-version scans: `if v > acc { acc = v }`. -/
def maxStep (acc : Int) (id : String) : Int :=
  match parseMigrationVersion id with
  | .ok v => if v > acc then v else acc
  | .error _ => acc

/-- The maximum-version scan of `UpdateAfterRollback`: fold over the
identifiers, keeping the largest successfully parsed version, starting from
0 (iteration-order independent, so the Go map order is irrelevant). -/
def maxParsedVersion (ids : List String) : Int :=
  ids.foldl maxStep 0

/-- `UpdateAfterRollback` (schema.go).  The `version` argument is unused by
the source as well. -/
def updateAfterRollback (sv : SchemaVersion) (migrationID : String)
    (version : Int) (description : String) (now : Nat) : SchemaVersion :=
  let applied := removeSet sv.appliedMigrations migrationID
  { currentVersion := maxParsedVersion applied
    appliedMigrations := applied
    migrationHistory := sv.migrationHistory ++
      [⟨migrationID ++ "_rollback", "Rolled back: " ++ description, now, "0s", true, ""⟩]
    lastMigrationAt := now
    status := .clean }

/-- `ForceCleanState` (schema.go). -/
def forceCleanState (sv : SchemaVersion) : SchemaVersion :=
  { sv with status := .clean }

/-- `isRollbackRecord` (schema.go): the ID is longer than 9 characters and
ends in `_rollback`. -/
def isRollbackRecord (id : String) : Bool :=
  id.data.length > 9 && id.data.drop (id.data.length - 9) == "_rollback".data

/-- `record.ID[:len(record.ID)-9]`. -/
def dropRollbackSuffix (id : String) : String :=
  String.mk (id.data.take (id.data.length - 9))

/-- The history scan of `ValidateSchemaState`: successful non-rollback IDs
are collected; a rollback record (successful or not, as in the source)
removes its original ID. -/
def successfulFromHistory (history : List MigrationRecord) : List String :=
  history.foldl (fun acc rec =>
    if rec.success && !isRollbackRecord rec.id then insertSet acc rec.id
    else if isRollbackRecord rec.id then removeSet acc (dropRollbackSuffix rec.id)
    else acc) []

/-- `ValidateSchemaState` (schema.go): refuse dirty/migrating/rollback
status, then require the applied set and the successful history to agree.
(Go names an arbitrary offending ID from a map iteration; here the first in
list order — the claims only depend on whether an error occurs.) -/
def validateSchemaState (sv : SchemaVersion) : Except String Unit :=
  if sv.status = .dirty then
    .error "database is in dirty state, manual intervention required"
  else if sv.status = .migrating then
    .error "migration is currently in progress"
  else if sv.status = .rollback then
    .error "rollback is currently in progress"
  else
    let successful := successfulFromHistory sv.migrationHistory
    match successful.find? (fun id => !sv.appliedMigrations.contains id) with
    | some id => .error ("migration " ++ id ++
        " appears in history as successful but not marked as applied")
    | none =>
      match sv.appliedMigrations.find? (fun id => !successful.contains id) with
      | some id => .error ("migration " ++ id ++
          " marked as applied but no successful record in history")
      | none => .ok ()

/-! ## The store and `InitializeFreshDatabase` -/

/-- The pebble store, abstracted to what the engine observes: the decoded
`__schema_version__` document (if the reserved key is present) and the list
of all other keys. -/
structure Store where
  schemaRecord : Option SchemaVersion
  otherKeys : List String
  deriving DecidableEq

/-- `GetSchemaVersion` (schema.go): the zero record when the key is absent. -/
def getSchemaVersion (s : Store) : SchemaVersion :=
  s.schemaRecord.getD zeroRecord

/-- `SetSchemaVersion` (schema.go). -/
def setSchemaVersion (s : Store) (sv : SchemaVersion) : Store :=
  { s with schemaRecord := some sv }

/-- `isDatabaseEmpty` (schema.go): no keys at all.  (Only called when the
reserved key is absent.) -/
def isDatabaseEmpty (s : Store) : Bool :=
  s.schemaRecord.isNone && s.otherKeys.isEmpty

/-- One step of the maximum-registered-version scans over migrations:
`if m.Version > maxVersion { maxVersion = m.Version }`. -/
def verMax (acc : Int) (m : Migration) : Int :=
  if m.version > acc then m.version else acc

/-- The record written by the fresh-database branch of
`InitializeFreshDatabase`: the zero record for an empty registry, otherwise
every registered migration marked applied with a synthetic history record
and `current_version` the largest registered version.  The single Go loop
accumulating the three components is decomposed into three passes over the
same `ordered` slice. -/
def freshRecord (r : MigrationRegistry) (now : Nat) : SchemaVersion :=
  if r.ordered.isEmpty then zeroRecord
  else
    { currentVersion := r.ordered.foldl verMax 0
      appliedMigrations := r.ordered.map Migration.id
      migrationHistory := r.ordered.map (fun m =>
        ⟨m.id, m.description ++ " (skipped - fresh database)", now, "0s", true, ""⟩)
      lastMigrationAt := 0
      status := .clean }

/-- `InitializeFreshDatabase` (schema.go): nothing when the reserved key is
present; the zero record when the store has other data; otherwise the
fresh record. -/
def initializeFreshDatabase (s : Store) (r : MigrationRegistry) (now : Nat) : Store :=
  match s.schemaRecord with
  | some _ => s
  | none =>
    if !isDatabaseEmpty s then { s with schemaRecord := some zeroRecord }
    else { s with schemaRecord := some (freshRecord r now) }

/-! ## Planner (registry.go) -/

inductive ExecutionType where
  | upgrade
  | downgrade
  | rerun
  deriving DecidableEq

structure ExecutionPlan where
  type : ExecutionType
  currentVersion : Int
  targetVersion : Int
  migrations : List Migration
  estimatedSteps : Nat
  deriving DecidableEq

/-- `PlanUpgrade` (registry.go); `pi` is the map-iteration order forwarded
to `GetPendingMigrations`. -/
def planUpgrade (r : MigrationRegistry) (sv : SchemaVersion) (pi : List String) :
    Except String ExecutionPlan :=
  match getPendingMigrations r sv.appliedMigrations pi with
  | .error e => .error ("failed to get pending migrations: " ++ e)
  | .ok pending =>
    let target :=
      if pending.isEmpty then sv.currentVersion
      else pending.foldl verMax sv.currentVersion
    .ok { type := .upgrade
          currentVersion := sv.currentVersion
          targetVersion := target
          migrations := pending
          estimatedSteps := pending.length }

/-- `PlanUpgradeTo` (registry.go): a no-op plan when the current version has
already reached the target, otherwise the version-range slice
`[current+1, target]` with applied migrations filtered out — note: registry
(version) order, no topological sort. -/
def planUpgradeTo (r : MigrationRegistry) (sv : SchemaVersion) (targetVersion : Int) :
    ExecutionPlan :=
  if sv.currentVersion ≥ targetVersion then
    { type := .upgrade
      currentVersion := sv.currentVersion
      targetVersion := sv.currentVersion
      migrations := []
      estimatedSteps := 0 }
  else
    let pending := (getMigrationsInVersionRange r (sv.currentVersion + 1)
      targetVersion).filter (fun m => !sv.appliedMigrations.contains m.id)
    { type := .upgrade
      currentVersion := sv.currentVersion
      targetVersion := targetVersion
      migrations := pending
      estimatedSteps := pending.length }

/-- `PlanDowngrade` (registry.go). -/
def planDowngrade (r : MigrationRegistry) (sv : SchemaVersion) (targetVersion : Int) :
    ExecutionPlan :=
  if sv.currentVersion ≤ targetVersion then
    { type := .downgrade
      currentVersion := sv.currentVersion
      targetVersion := sv.currentVersion
      migrations := []
      estimatedSteps := 0 }
  else
    let toRollback := (getMigrationsInVersionRange r (targetVersion + 1)
      sv.currentVersion).reverse.filter (fun m => sv.appliedMigrations.contains m.id)
    { type := .downgrade
      currentVersion := sv.currentVersion
      targetVersion := targetVersion
      migrations := toRollback
      estimatedSteps := toRollback.length }

/-- `PlanRerun` (registry.go). -/
def planRerun (r : MigrationRegistry) (sv : SchemaVersion) (migrationID : String) :
    Except String ExecutionPlan :=
  match regLookup r migrationID with
  | none => .error ("migration " ++ migrationID ++ " not found")
  | some m =>
    .ok { type := .rerun
          currentVersion := sv.currentVersion
          targetVersion := sv.currentVersion
          migrations := [m]
          estimatedSteps := 2 }

/-! ## Engine (engine.go)

User callbacks are opaque; `Env` carries their outcomes (per migration ID
and direction), the backup outcome, the disk-space probe outcome, the clock
and the formatted duration.  Engine functions return the final store paired
with the error message on failure (`Except (String × Store) Store`), so
post-failure catalog state is observable. -/

structure Env where
  upOk : String → Bool
  downOk : String → Bool
  validateOk : String → Bool
  backupOk : Bool
  diskOk : Bool
  now : Nat
  duration : String

/-- `executeSingleMigration` (engine.go): nil-callback check, the callback
itself, then the optional validation callback. -/
def executeSingleMigration (env : Env) (m : Migration) (up : Bool) : Except String Unit :=
  if up && !m.hasUp then .error ("migration " ++ m.id ++ " has no up function")
  else if !up && !m.hasDown then .error ("migration " ++ m.id ++ " has no down function")
  else if up && !env.upOk m.id then .error "up migration failed"
  else if !up && !env.downOk m.id then .error "down migration failed"
  else if m.hasValidate && !env.validateOk m.id then .error "migration validation failed"
  else .ok ()

/-- The per-migration loop of `executeUpgrade`: on callback failure mark the
migration failed (status dirty) and stop; on success commit the catalog row
and continue. -/
def upgradeLoop (env : Env) : List Migration → Store → Except (String × Store) Store
  | [], s => .ok s
  | m :: rest, s =>
    match executeSingleMigration env m true with
    | .error e =>
      .error ("migration " ++ m.id ++ " failed: " ++ e,
        setSchemaVersion s (markMigrationFailed (getSchemaVersion s) m.id m.description e env.now))
    | .ok _ =>
      upgradeLoop env rest
        (setSchemaVersion s (updateSchemaAfterMigration (getSchemaVersion s)
          m.id m.version m.description env.duration env.now))

/-- `executeUpgrade` (engine.go): dry-run short-circuit, optional backup,
state validation, `MarkMigrationStarted`, then the loop. -/
def executeUpgrade (enableBackup dryRun : Bool) (env : Env) (plan : ExecutionPlan)
    (s : Store) : Except (String × Store) Store :=
  if dryRun then .ok s
  else if enableBackup && !plan.migrations.isEmpty && !env.backupOk then
    .error ("failed to create backup before migration", s)
  else
    match validateSchemaState (getSchemaVersion s) with
    | .error e => .error ("schema validation failed: " ++ e, s)
    | .ok _ =>
      upgradeLoop env plan.migrations
        (setSchemaVersion s (markMigrationStarted (getSchemaVersion s)))

/-- The per-migration loop of `executeDowngrade`. -/
def downgradeLoop (env : Env) : List Migration → Store → Except (String × Store) Store
  | [], s => .ok s
  | m :: rest, s =>
    match executeSingleMigration env m false with
    | .error e =>
      .error ("rollback of migration " ++ m.id ++ " failed: " ++ e,
        setSchemaVersion s (markMigrationFailed (getSchemaVersion s)
          (m.id ++ "_rollback") ("Rollback: " ++ m.description) e env.now))
    | .ok _ =>
      downgradeLoop env rest
        (setSchemaVersion s (updateAfterRollback (getSchemaVersion s)
          m.id m.version m.description env.now))

/-- `executeDowngrade` (engine.go). -/
def executeDowngrade (enableBackup dryRun : Bool) (env : Env) (plan : ExecutionPlan)
    (s : Store) : Except (String × Store) Store :=
  if dryRun then .ok s
  else if enableBackup && !plan.migrations.isEmpty && !env.backupOk then
    .error ("failed to create backup before rollback", s)
  else
    match validateSchemaState (getSchemaVersion s) with
    | .error e => .error ("schema validation failed: " ++ e, s)
    | .ok _ =>
      downgradeLoop env plan.migrations
        (setSchemaVersion s (markRollbackStarted (getSchemaVersion s)))

/-- `executeRerun` (engine.go): exactly one migration; Down then Up (each
with validation), then a catalog commit under the `_rerun`-suffixed ID with
the original migration version. -/
def executeRerun (enableBackup dryRun : Bool) (env : Env) (plan : ExecutionPlan)
    (s : Store) : Except (String × Store) Store :=
  match plan.migrations with
  | [m] =>
    if dryRun then .ok s
    else if enableBackup && !env.backupOk then
      .error ("failed to create backup before rerun", s)
    else
      match validateSchemaState (getSchemaVersion s) with
      | .error e => .error ("schema validation failed: " ++ e, s)
      | .ok _ =>
        let s1 := setSchemaVersion s (markMigrationStarted (getSchemaVersion s))
        match executeSingleMigration env m false with
        | .error e =>
          .error ("rerun rollback of migration " ++ m.id ++ " failed: " ++ e,
            setSchemaVersion s1 (markMigrationFailed (getSchemaVersion s1)
              (m.id ++ "_rerun_rollback") ("Rerun Rollback: " ++ m.description) e env.now))
        | .ok _ =>
          match executeSingleMigration env m true with
          | .error e =>
            .error ("rerun of migration " ++ m.id ++ " failed: " ++ e,
              setSchemaVersion s1 (markMigrationFailed (getSchemaVersion s1)
                (m.id ++ "_rerun") ("Rerun: " ++ m.description) e env.now))
          | .ok _ =>
            .ok (setSchemaVersion s1 (updateSchemaAfterMigration (getSchemaVersion s1)
              (m.id ++ "_rerun") m.version ("Rerun: " ++ m.description)
              env.duration env.now))
  | other =>
    .error ("rerun plan must contain exactly one migration, got " ++
      toString other.length, s)

/-- `ExecutePlan` (engine.go): dispatch on the plan type. -/
def executePlan (enableBackup dryRun : Bool) (env : Env) (plan : ExecutionPlan)
    (s : Store) : Except (String × Store) Store :=
  match plan.type with
  | .upgrade => executeUpgrade enableBackup dryRun env plan s
  | .downgrade => executeDowngrade enableBackup dryRun env plan s
  | .rerun => executeRerun enableBackup dryRun env plan s

/-! ## Startup integration (startup.go) -/

structure StartupOptions where
  runMigrations : Bool
  backupEnabled : Bool
  checkDiskSpace : Bool
  cliName : String

/-- The CLI-name default used in startup error messages. -/
def cliNameOf (opts : StartupOptions) : String :=
  if opts.cliName = "" then "pebble-migrate" else opts.cliName

/-- The error message of `attemptMigrationRecovery` for a stuck migration
that is not rerunnable (single quotes around the interpolated values are
omitted, see the module conventions). -/
def recoveryNonRerunnableMsg (mid mdesc cli : String) : String :=
  "database is in migrating state - migration " ++ mid ++ " (" ++
    mdesc ++ ") was interrupted. This migration is " ++
    "not marked as rerunnable" ++ " and requires manual intervention. " ++
    "Options: 1. Run " ++ cli ++ " validate to check if migration " ++
    "completed successfully 2. Run " ++ cli ++ " force-clean to " ++
    "force reset (use with caution) 3. Restore from backup if available"

/-- `attemptMigrationRecovery` (startup.go): replan, fail on an empty plan
(inconsistent state), fail when the stuck head migration is not rerunnable,
otherwise reset the status to clean. -/
def attemptMigrationRecovery (r : MigrationRegistry) (opts : StartupOptions)
    (pi : List String) (s : Store) : Except (String × Store) Store :=
  match planUpgrade r (getSchemaVersion s) pi with
  | .error e => .error ("failed to create migration plan for recovery: " ++ e, s)
  | .ok plan =>
    match plan.migrations with
    | [] =>
      .error ("database is in migrating state but no pending migrations found. Run " ++
        cliNameOf opts ++ " force-clean to manually reset state", s)
    | m :: _ =>
      if !m.rerunnable then
        .error (recoveryNonRerunnableMsg m.id m.description (cliNameOf opts), s)
      else
        .ok (setSchemaVersion s { getSchemaVersion s with status := .clean })

/-- The part of `CheckAndRunStartupMigrations` after the recovery stage:
refuse non-clean status, plan, succeed on an empty plan, refuse when
running is disallowed, check disk space, then execute with dry-run off and
backup per options. -/
def startupAfterRecovery (r : MigrationRegistry) (opts : StartupOptions)
    (env : Env) (pi : List String) (s1 : Store) : Except (String × Store) Store :=
  if (getSchemaVersion s1).status ≠ .clean then
    .error ("database is in a non-clean state - manual intervention required. Run " ++
      cliNameOf opts ++ " status to check and resolve issues", s1)
  else
    match planUpgrade r (getSchemaVersion s1) pi with
    | .error e => .error ("failed to create migration plan: " ++ e, s1)
    | .ok plan =>
      if plan.migrations.isEmpty then .ok s1
      else if !opts.runMigrations then
        .error ("database has " ++ toString plan.migrations.length ++
          " pending migrations. Run migrations using " ++ cliNameOf opts ++
          " up or restart with the migrate flag", s1)
      else if opts.checkDiskSpace && !env.diskOk then
        .error ("disk space check failed: insufficient disk space for migration", s1)
      else
        match executePlan opts.backupEnabled false env plan s1 with
        | .error es => .error ("startup migration failed: " ++ es.1, es.2)
        | .ok s2 => .ok s2

/-- `CheckAndRunStartupMigrations` (startup.go).  The `GlobalRegistry` is
the explicit parameter `r`: initialize fresh databases, attempt recovery
when the status is migrating, then continue with the post-recovery stage. -/
def checkAndRunStartupMigrations (r : MigrationRegistry) (opts : StartupOptions)
    (env : Env) (pi : List String) (s : Store) : Except (String × Store) Store :=
  if (getSchemaVersion (initializeFreshDatabase s r env.now)).status = .migrating then
    match attemptMigrationRecovery r opts pi (initializeFreshDatabase s r env.now) with
    | .error es => .error es
    | .ok s1 => startupAfterRecovery r opts env pi s1
  else startupAfterRecovery r opts env pi (initializeFreshDatabase s r env.now)

/-! ## Generic helper lemmas -/

instance {ε α : Type} [DecidableEq ε] [DecidableEq α] : DecidableEq (Except ε α) :=
  fun x y =>
    match x, y with
    | .ok a, .ok b =>
      decidable_of_iff (a = b) ⟨fun h => by rw [h], fun h => by injection h⟩
    | .error a, .error b =>
      decidable_of_iff (a = b) ⟨fun h => by rw [h], fun h => by injection h⟩
    | .ok _, .error _ => isFalse (fun h => by injection h)
    | .error _, .ok _ => isFalse (fun h => by injection h)

theorem mem_insertSet {l : List String} {x y : String} :
    y ∈ insertSet l x ↔ y ∈ l ∨ y = x := by
  unfold insertSet
  split
  · next h =>
    have hx : x ∈ l := by simpa [List.contains, List.elem_iff] using h
    constructor
    · exact Or.inl
    · rintro (h1 | rfl) <;> [exact h1; exact hx]
  · simp [List.mem_append]

theorem mem_removeSet {l : List String} {x y : String} :
    y ∈ removeSet l x ↔ y ∈ l ∧ y ≠ x := by
  simp [removeSet, List.mem_filter]

theorem le_maxStep (acc : Int) (id : String) : acc ≤ maxStep acc id := by
  unfold maxStep
  split
  · split <;> omega
  · exact le_refl _

theorem parse_le_maxStep {id : String} {v : Int} (acc : Int)
    (hp : parseMigrationVersion id = .ok v) : v ≤ maxStep acc id := by
  simp only [maxStep, hp]
  split <;> omega

theorem le_foldl_maxStep (ids : List String) (acc : Int) :
    acc ≤ ids.foldl maxStep acc := by
  induction ids generalizing acc with
  | nil => exact le_refl _
  | cons a l ih => exact le_trans (le_maxStep acc a) (ih (maxStep acc a))

theorem foldl_maxStep_ub {ids : List String} {id : String} {v : Int} (acc : Int)
    (hmem : id ∈ ids) (hp : parseMigrationVersion id = .ok v) :
    v ≤ ids.foldl maxStep acc := by
  induction ids generalizing acc with
  | nil => cases hmem
  | cons a l ih =>
    rcases List.mem_cons.mp hmem with rfl | h
    · exact le_trans (parse_le_maxStep acc hp) (le_foldl_maxStep l _)
    · exact ih _ h

theorem foldl_maxStep_attained (ids : List String) (acc : Int) :
    ids.foldl maxStep acc = acc ∨
      ∃ id ∈ ids, parseMigrationVersion id = .ok (ids.foldl maxStep acc) := by
  induction ids generalizing acc with
  | nil => exact Or.inl rfl
  | cons a l ih =>
    rcases ih (maxStep acc a) with h | ⟨id, hmem, hp⟩
    · rw [List.foldl_cons, h]
      unfold maxStep
      split
      · next v hpa =>
        split
        · next => exact Or.inr ⟨a, List.mem_cons_self a l, hpa⟩
        · next => exact Or.inl rfl
      · next => exact Or.inl rfl
    · exact Or.inr ⟨id, List.mem_cons_of_mem a hmem, hp⟩

theorem maxParsedVersion_ub {ids : List String} {id : String} {v : Int}
    (hmem : id ∈ ids) (hp : parseMigrationVersion id = .ok v) :
    v ≤ maxParsedVersion ids :=
  foldl_maxStep_ub 0 hmem hp

theorem maxParsedVersion_attained (ids : List String) :
    maxParsedVersion ids = 0 ∨
      ∃ id ∈ ids, parseMigrationVersion id = .ok (maxParsedVersion ids) :=
  foldl_maxStep_attained ids 0

theorem maxParsedVersion_append {l : List String} {id : String} {v : Int}
    (hp : parseMigrationVersion id = .ok v) :
    maxParsedVersion (l ++ [id]) =
      if v > maxParsedVersion l then v else maxParsedVersion l := by
  simp only [maxParsedVersion, List.foldl_append, List.foldl_cons, List.foldl_nil]
  unfold maxStep
  rw [hp]

theorem maxParsedVersion_insertSet {l : List String} {id : String} {v : Int}
    (hp : parseMigrationVersion id = .ok v) :
    maxParsedVersion (insertSet l id) =
      if v > maxParsedVersion l then v else maxParsedVersion l := by
  unfold insertSet
  split
  · next h =>
    have hx : id ∈ l := by simpa [List.contains, List.elem_iff] using h
    have hle : v ≤ maxParsedVersion l := maxParsedVersion_ub hx hp
    rw [if_neg (by omega)]
  · exact maxParsedVersion_append hp

theorem le_verMax (acc : Int) (m : Migration) : acc ≤ verMax acc m := by
  unfold verMax
  split <;> omega

theorem version_le_verMax (acc : Int) (m : Migration) : m.version ≤ verMax acc m := by
  unfold verMax
  split <;> omega

theorem le_foldl_verMax (l : List Migration) (acc : Int) :
    acc ≤ l.foldl verMax acc := by
  induction l generalizing acc with
  | nil => exact le_refl _
  | cons a t ih => exact le_trans (le_verMax acc a) (ih (verMax acc a))

theorem foldl_verMax_ub {l : List Migration} {m : Migration} (acc : Int)
    (hmem : m ∈ l) : m.version ≤ l.foldl verMax acc := by
  induction l generalizing acc with
  | nil => cases hmem
  | cons a t ih =>
    rcases List.mem_cons.mp hmem with rfl | h
    · exact le_trans (version_le_verMax acc m) (le_foldl_verMax t _)
    · exact ih _ h

theorem foldl_verMax_attained (l : List Migration) (acc : Int) :
    l.foldl verMax acc = acc ∨ ∃ m ∈ l, l.foldl verMax acc = m.version := by
  induction l generalizing acc with
  | nil => exact Or.inl rfl
  | cons a t ih =>
    rcases ih (verMax acc a) with h | ⟨m, hmem, hv⟩
    · rw [List.foldl_cons, h]
      unfold verMax
      split
      · exact Or.inr ⟨a, List.mem_cons_self a t, rfl⟩
      · exact Or.inl rfl
    · exact Or.inr ⟨m, List.mem_cons_of_mem a hmem, hv⟩

/-! ## Concrete scenario registries (from ordering_test.go) -/

/-- Scenario C migrations, as declared (version fields are populated by
`register` from the IDs). -/
def mFirst : Migration :=
  ⟨"1000000000_first", 0, [], "First migration", true, true, false, false⟩

def mSecond : Migration :=
  ⟨"2000000000_second", 0, [], "Second migration", true, true, false, false⟩

def mThird : Migration :=
  ⟨"1500000000_third", 0, ["2000000000_second"], "Third migration", true, true, false, false⟩

def mFourth : Migration :=
  ⟨"3000000000_fourth", 0, ["1000000000_first"], "Fourth migration", true, true, false, false⟩

/-- The Scenario C registry, registered in the order used by
`TestMigrationOrdering` (m3, m1, m4, m2). -/
def scenarioCRegistry : MigrationRegistry :=
  match registerAll [mThird, mFirst, mFourth, mSecond] with
  | .ok r => r
  | .error _ => emptyRegistry

/-- Scenario C migrations as stored by the registry (version re-derived). -/
def mFirstV : Migration := { mFirst with version := 1000000000 }

def mSecondV : Migration := { mSecond with version := 2000000000 }

def mThirdV : Migration := { mThird with version := 1500000000 }

def mFourthV : Migration := { mFourth with version := 3000000000 }

/-- The pending IDs of Scenario C with nothing applied (the keys of the Go
`inDegree` map, in `ordered` order). -/
def scenarioCIds : List String :=
  ["1000000000_first", "1500000000_third", "2000000000_second", "3000000000_fourth"]

/-- Two migrations sharing a version, for the tie-break analysis. -/
def tieA : Migration := ⟨"1000000000_aa", 0, [], "Tie A", true, true, false, false⟩

def tieB : Migration := ⟨"1000000000_bb", 0, [], "Tie B", true, true, false, false⟩

def tieRegistry : MigrationRegistry :=
  match registerAll [tieA, tieB] with
  | .ok r => r
  | .error _ => emptyRegistry

/-! ## Claims -/

/-- Claim C9: `MarkMigrationFailed(id, desc, err)` appends exactly one
failure record (success = false, carrying the error text) to the migration
history and sets the status to dirty, leaving the applied set and the
current version unchanged. -/
theorem claim_C9_mark_failed_frame (sv : SchemaVersion)
    (migrationID description errMsg : String) (now : Nat) :
    (markMigrationFailed sv migrationID description errMsg now).migrationHistory =
      sv.migrationHistory ++
        [⟨migrationID, description ++ " (FAILED)", now, "0s", false, errMsg⟩] ∧
    (markMigrationFailed sv migrationID description errMsg now).status = .dirty ∧
    (markMigrationFailed sv migrationID description errMsg now).appliedMigrations =
      sv.appliedMigrations ∧
    (markMigrationFailed sv migrationID description errMsg now).currentVersion =
      sv.currentVersion :=
  ⟨rfl, rfl, rfl, rfl⟩

/-- Claim C7: for an applied migration ID, `UpdateAfterRollback` removes the
ID from the applied set, appends an `<id>_rollback` success record, sets the
status to clean, and recomputes the current version as the maximum version
parsed from the remaining applied identifiers (an upper bound that is
attained unless it is 0, and 0 when the remaining set is empty). -/
theorem claim_C7_update_after_rollback (sv : SchemaVersion) (migrationID : String)
    (version : Int) (description : String) (now : Nat)
    (hmem : migrationID ∈ sv.appliedMigrations) :
    migrationID ∉ (updateAfterRollback sv migrationID version description now).appliedMigrations ∧
    (updateAfterRollback sv migrationID version description now).migrationHistory =
      sv.migrationHistory ++
        [⟨migrationID ++ "_rollback", "Rolled back: " ++ description, now, "0s", true, ""⟩] ∧
    (updateAfterRollback sv migrationID version description now).status = .clean ∧
    (∀ id ∈ (updateAfterRollback sv migrationID version description now).appliedMigrations,
      ∀ w : Int, parseMigrationVersion id = .ok w →
        w ≤ (updateAfterRollback sv migrationID version description now).currentVersion) ∧
    ((updateAfterRollback sv migrationID version description now).currentVersion = 0 ∨
      ∃ id ∈ (updateAfterRollback sv migrationID version description now).appliedMigrations,
        parseMigrationVersion id =
          .ok (updateAfterRollback sv migrationID version description now).currentVersion) ∧
    ((updateAfterRollback sv migrationID version description now).appliedMigrations = [] →
      (updateAfterRollback sv migrationID version description now).currentVersion = 0) := by
  refine ⟨?_, rfl, rfl, ?_, ?_, ?_⟩
  · intro hc
    exact (mem_removeSet.mp hc).2 rfl
  · intro id hid w hw
    exact maxParsedVersion_ub hid hw
  · exact maxParsedVersion_attained _
  · intro h
    show maxParsedVersion (removeSet sv.appliedMigrations migrationID) = 0
    rw [show removeSet sv.appliedMigrations migrationID = [] from h]
    rfl

/-- Witness for claim C7 at a concrete one-element catalog. -/
theorem claim_C7_witness :
    "1700000000_a" ∈ (⟨1700000000, ["1700000000_a"], [], 0, .clean⟩ :
        SchemaVersion).appliedMigrations ∧
    "1700000000_a" ∉ (updateAfterRollback ⟨1700000000, ["1700000000_a"], [], 0, .clean⟩
        "1700000000_a" 1700000000 "d" 5).appliedMigrations :=
  ⟨by decide,
    (claim_C7_update_after_rollback ⟨1700000000, ["1700000000_a"], [], 0, .clean⟩
      "1700000000_a" 1700000000 "d" 5 (by decide)).1⟩

/-- Claim C3: the registration path accepts identifiers whose description
field is empty, or contains whitespace or punctuation such as `@` — the
source never inspects the text after the first underscore, although the
claim (and the repository's own `TestMigrationIDValidation` table) says such
identifiers are rejected. -/
theorem claim_C3_bad_descriptions_accepted :
    parseMigrationVersion "1754917200_test migration" = .ok 1754917200 ∧
    parseMigrationVersion "1754917200_test@migration" = .ok 1754917200 ∧
    parseMigrationVersion "1754917200_" = .ok 1754917200 ∧
    (register emptyRegistry
      ⟨"1754917200_test migration", 0, [], "d", true, true, false, false⟩).toOption.isSome =
      true := by
  exact ⟨rfl, rfl, rfl, rfl⟩

/-- Claim C5: two legitimate Go map-iteration orders of the in-degree keys
make `GetPendingMigrations` return two different sequences for the same
registry and applied set, when two ready migrations share a version — the
ready-slice sort has no identifier tie-break. -/
theorem claim_C5_tie_order_nondeterministic :
    List.Perm ["1000000000_aa", "1000000000_bb"]
      ((pendingList tieRegistry []).map Migration.id) ∧
    List.Perm ["1000000000_bb", "1000000000_aa"]
      ((pendingList tieRegistry []).map Migration.id) ∧
    getPendingMigrations tieRegistry [] ["1000000000_aa", "1000000000_bb"] =
      .ok [{ tieA with version := 1000000000 }, { tieB with version := 1000000000 }] ∧
    getPendingMigrations tieRegistry [] ["1000000000_bb", "1000000000_aa"] =
      .ok [{ tieB with version := 1000000000 }, { tieA with version := 1000000000 }] ∧
    getPendingMigrations tieRegistry [] ["1000000000_aa", "1000000000_bb"] ≠
      getPendingMigrations tieRegistry [] ["1000000000_bb", "1000000000_aa"] := by
  refine ⟨by decide, by decide, by decide, by decide, by decide⟩

/-! ### Claim C2 -/

theorem freshRecord_status (r : MigrationRegistry) (now : Nat) :
    (freshRecord r now).status = .clean := by
  unfold freshRecord
  split <;> rfl

theorem freshRecord_applied (r : MigrationRegistry) (now : Nat) :
    ∀ m ∈ r.ordered, m.id ∈ (freshRecord r now).appliedMigrations := by
  intro m hm
  unfold freshRecord
  split
  · next h => rw [List.isEmpty_iff.mp h] at hm; cases hm
  · exact List.mem_map_of_mem Migration.id hm

theorem freshRecord_history (r : MigrationRegistry) (now : Nat) :
    ∀ m ∈ r.ordered,
      (⟨m.id, m.description ++ " (skipped - fresh database)", now, "0s", true, ""⟩ :
        MigrationRecord) ∈ (freshRecord r now).migrationHistory := by
  intro m hm
  unfold freshRecord
  split
  · next h => rw [List.isEmpty_iff.mp h] at hm; cases hm
  · exact List.mem_map_of_mem _ hm

theorem freshRecord_cv_ub (r : MigrationRegistry) (now : Nat) :
    ∀ m ∈ r.ordered, m.version ≤ (freshRecord r now).currentVersion := by
  intro m hm
  unfold freshRecord
  split
  · next h => rw [List.isEmpty_iff.mp h] at hm; cases hm
  · exact foldl_verMax_ub 0 hm

theorem freshRecord_cv_attained (r : MigrationRegistry) (now : Nat) :
    (freshRecord r now).currentVersion = 0 ∨
      ∃ m ∈ r.ordered, (freshRecord r now).currentVersion = m.version := by
  unfold freshRecord
  split
  · exact Or.inl rfl
  · exact foldl_verMax_attained r.ordered 0

/-- Claim C2: `InitializeFreshDatabase` classifies the store three ways:
reserved key present — write nothing; key absent and the store completely
empty — write a record with every registered migration applied, a synthetic
success record per migration, the maximum registered version as current
version, and clean status; key absent but other keys present — write the
zero record, leaving every registered migration pending. -/
theorem claim_C2_fresh_init_discrimination (s : Store) (r : MigrationRegistry) (now : Nat) :
    (s.schemaRecord.isSome = true → initializeFreshDatabase s r now = s) ∧
    (s.schemaRecord = none → s.otherKeys = [] →
      (initializeFreshDatabase s r now).schemaRecord = some (freshRecord r now) ∧
      (∀ m ∈ r.ordered, m.id ∈ (freshRecord r now).appliedMigrations) ∧
      (∀ m ∈ r.ordered,
        (⟨m.id, m.description ++ " (skipped - fresh database)", now, "0s", true, ""⟩ :
          MigrationRecord) ∈ (freshRecord r now).migrationHistory) ∧
      (∀ m ∈ r.ordered, m.version ≤ (freshRecord r now).currentVersion) ∧
      ((freshRecord r now).currentVersion = 0 ∨
        ∃ m ∈ r.ordered, (freshRecord r now).currentVersion = m.version) ∧
      (freshRecord r now).status = .clean) ∧
    (s.schemaRecord = none → s.otherKeys ≠ [] →
      (initializeFreshDatabase s r now).schemaRecord = some zeroRecord ∧
      zeroRecord = ⟨0, [], [], 0, .clean⟩ ∧
      pendingList r zeroRecord.appliedMigrations = r.ordered) := by
  refine ⟨?_, ?_, ?_⟩
  · intro h
    rcases hs : s.schemaRecord with _ | rec
    · rw [hs] at h; cases h
    · simp [initializeFreshDatabase, hs]
  · intro hs hkeys
    have hempty : isDatabaseEmpty s = true := by
      simp [isDatabaseEmpty, hs, hkeys]
    refine ⟨?_, freshRecord_applied r now, freshRecord_history r now,
      freshRecord_cv_ub r now, freshRecord_cv_attained r now, freshRecord_status r now⟩
    simp [initializeFreshDatabase, hs, hempty]
  · intro hs hkeys
    have hempty : isDatabaseEmpty s = false := by
      simp [isDatabaseEmpty, hs, hkeys]
    refine ⟨?_, rfl, ?_⟩
    · simp [initializeFreshDatabase, hs, hempty]
    · exact List.filter_eq_self.mpr (fun m _ => rfl)

/-- Witness for claim C2 at a concrete empty store and two-migration
registry (Scenario E shape). -/
theorem claim_C2_witness :
    ((⟨none, []⟩ : Store).schemaRecord = none) ∧
    ((⟨none, []⟩ : Store).otherKeys = []) ∧
    (initializeFreshDatabase ⟨none, []⟩ tieRegistry 7).schemaRecord =
      some (freshRecord tieRegistry 7) ∧
    ((⟨none, ["somekey"]⟩ : Store).otherKeys ≠ []) ∧
    (initializeFreshDatabase ⟨none, ["somekey"]⟩ tieRegistry 7).schemaRecord =
      some zeroRecord :=
  ⟨rfl, rfl,
    ((claim_C2_fresh_init_discrimination ⟨none, []⟩ tieRegistry 7).2.1 rfl rfl).1,
    by decide,
    ((claim_C2_fresh_init_discrimination ⟨none, ["somekey"]⟩ tieRegistry 7).2.2 rfl
      (by decide)).1⟩

/-! ### Claim C4 -/

/-- Counterexample to claim C4: with the Scenario C registry and the zero
record, `PlanUpgrade` (filtered to version ≤ 3000000000, which keeps all
four migrations) yields first, second, third, fourth, while
`PlanUpgradeTo(3000000000)` yields the version-ordered first, third,
second, fourth — not the same sequence. -/
theorem claim_C4_counterexample :
    zeroRecord.currentVersion < 3000000000 ∧
    (planUpgrade scenarioCRegistry zeroRecord scenarioCIds).map ExecutionPlan.migrations =
      .ok [mFirstV, mSecondV, mThirdV, mFourthV] ∧
    (planUpgradeTo scenarioCRegistry zeroRecord 3000000000).migrations =
      [mFirstV, mThirdV, mSecondV, mFourthV] ∧
    (planUpgradeTo scenarioCRegistry zeroRecord 3000000000).migrations ≠
      [mFirstV, mSecondV, mThirdV, mFourthV].filter
        (fun m => decide (m.version ≤ 3000000000)) :=
  ⟨by decide, by decide, by decide, by decide⟩

/-- Claim C4 (amended): when the current version has reached the target,
`PlanUpgradeTo` returns the no-op plan; otherwise its migrations are the
registry's version-ordered migrations with version in
`[current_version + 1, target]` that are not applied — a version-range
slice in registry order, not the topologically sorted `PlanUpgrade`
sequence. -/
theorem claim_C4_plan_upgrade_to (r : MigrationRegistry) (sv : SchemaVersion) (v : Int) :
    (sv.currentVersion ≥ v → planUpgradeTo r sv v =
      ⟨.upgrade, sv.currentVersion, sv.currentVersion, [], 0⟩) ∧
    (sv.currentVersion < v →
      (planUpgradeTo r sv v).type = .upgrade ∧
      (planUpgradeTo r sv v).currentVersion = sv.currentVersion ∧
      (planUpgradeTo r sv v).targetVersion = v ∧
      (planUpgradeTo r sv v).migrations = r.ordered.filter
        (fun m => decide (sv.currentVersion + 1 ≤ m.version) &&
          (decide (m.version ≤ v) && !sv.appliedMigrations.contains m.id)) ∧
      (planUpgradeTo r sv v).estimatedSteps = (planUpgradeTo r sv v).migrations.length) := by
  constructor
  · intro h
    simp [planUpgradeTo, h]
  · intro h
    have hcond : ¬ sv.currentVersion ≥ v := by omega
    refine ⟨by simp [planUpgradeTo, hcond], by simp [planUpgradeTo, hcond],
      by simp [planUpgradeTo, hcond], ?_, by simp [planUpgradeTo, hcond]⟩
    show (planUpgradeTo r sv v).migrations = _
    simp only [planUpgradeTo, hcond, if_false, getMigrationsInVersionRange,
      List.filter_filter]
    exact List.filter_congr (fun m _ => by
      cases ha : decide (sv.currentVersion + 1 ≤ m.version) <;>
        cases hb : decide (m.version ≤ v) <;>
          cases hc : sv.appliedMigrations.contains m.id <;> rfl)

/-- Witness for claim C4 (amended) at the Scenario C registry: the no-op
branch at target 0 and the filtering branch at target 1800000000. -/
theorem claim_C4_witness :
    (zeroRecord.currentVersion ≥ 0 ∧
      planUpgradeTo scenarioCRegistry zeroRecord 0 = ⟨.upgrade, 0, 0, [], 0⟩) ∧
    (zeroRecord.currentVersion < 1800000000 ∧
      (planUpgradeTo scenarioCRegistry zeroRecord 1800000000).targetVersion = 1800000000) :=
  ⟨⟨by decide, (claim_C4_plan_upgrade_to scenarioCRegistry zeroRecord 0).1 (by decide)⟩,
   ⟨by decide,
    ((claim_C4_plan_upgrade_to scenarioCRegistry zeroRecord 1800000000).2
      (by decide)).2.2.1⟩⟩

/-! ### Claim C8 -/

/-- A registry is well formed when every stored version was derived from
the identifier (which `register` guarantees). -/
def wellFormedRegistry (r : MigrationRegistry) : Prop :=
  ∀ m ∈ r.ordered, parseMigrationVersion m.id = .ok m.version

/-- The version-derivation invariant of the catalog. -/
def versionInvariant (sv : SchemaVersion) : Prop :=
  sv.currentVersion = maxParsedVersion sv.appliedMigrations ∧
  (sv.appliedMigrations = [] → sv.currentVersion = 0)

theorem versionInvariant_of_cv {sv : SchemaVersion}
    (h : sv.currentVersion = maxParsedVersion sv.appliedMigrations) :
    versionInvariant sv :=
  ⟨h, fun he => by rw [h, he]; rfl⟩

/-- Schema records reachable from the zero record or fresh initialization
through the catalog operations (`UpdateSchemaAfterMigration` restricted to
calls whose version argument is parsed from the identifier, as the engine
does). -/
inductive ReachableSchema (r : MigrationRegistry) : SchemaVersion → Prop where
  | zero : ReachableSchema r zeroRecord
  | freshInit (now : Nat) : ReachableSchema r (freshRecord r now)
  | afterMigration {sv : SchemaVersion} (id : String) (v : Int)
      (desc dur : String) (now : Nat) :
      ReachableSchema r sv → parseMigrationVersion id = .ok v →
      ReachableSchema r (updateSchemaAfterMigration sv id v desc dur now)
  | started {sv : SchemaVersion} :
      ReachableSchema r sv → ReachableSchema r (markMigrationStarted sv)
  | rollbackStarted {sv : SchemaVersion} :
      ReachableSchema r sv → ReachableSchema r (markRollbackStarted sv)
  | failed {sv : SchemaVersion} (id desc err : String) (now : Nat) :
      ReachableSchema r sv → ReachableSchema r (markMigrationFailed sv id desc err now)
  | rolledBack {sv : SchemaVersion} (id : String) (v : Int) (desc : String) (now : Nat) :
      ReachableSchema r sv → ReachableSchema r (updateAfterRollback sv id v desc now)
  | forcedClean {sv : SchemaVersion} :
      ReachableSchema r sv → ReachableSchema r (forceCleanState sv)

theorem foldl_maxStep_map_id (l : List Migration) (acc : Int)
    (h : ∀ m ∈ l, parseMigrationVersion m.id = .ok m.version) :
    (l.map Migration.id).foldl maxStep acc = l.foldl verMax acc := by
  induction l generalizing acc with
  | nil => rfl
  | cons m t ih =>
    have hm := h m (List.mem_cons_self m t)
    have hstep : maxStep acc m.id = verMax acc m := by
      simp only [maxStep, hm, verMax]
    rw [List.map_cons, List.foldl_cons, List.foldl_cons, hstep]
    exact ih _ (fun x hx => h x (List.mem_cons_of_mem m hx))

theorem freshRecord_invariant (r : MigrationRegistry) (now : Nat)
    (hwf : wellFormedRegistry r) : versionInvariant (freshRecord r now) := by
  apply versionInvariant_of_cv
  unfold freshRecord
  split
  · rfl
  · exact (foldl_maxStep_map_id r.ordered 0 hwf).symm

/-- Claim C8: in every catalog state reachable from the zero record or a
fresh initialization by the catalog operations, the current version equals
the maximum version parsed from the applied identifiers, and 0 when the
applied set is empty. -/
theorem claim_C8_version_derivation (r : MigrationRegistry) (sv : SchemaVersion)
    (hwf : wellFormedRegistry r) (hr : ReachableSchema r sv) :
    versionInvariant sv := by
  induction hr with
  | zero => exact versionInvariant_of_cv rfl
  | freshInit now => exact freshRecord_invariant r now hwf
  | afterMigration id v desc dur now _ hp ih =>
    apply versionInvariant_of_cv
    show (if v > _ then v else _) = maxParsedVersion (insertSet _ id)
    rw [maxParsedVersion_insertSet hp, ih.1]
  | started _ ih => exact ⟨ih.1, ih.2⟩
  | rollbackStarted _ ih => exact ⟨ih.1, ih.2⟩
  | failed id desc err now _ ih => exact ⟨ih.1, ih.2⟩
  | rolledBack id v desc now _ _ => exact versionInvariant_of_cv rfl
  | forcedClean _ ih => exact ⟨ih.1, ih.2⟩

/-- Witness for claim C8: the invariant at a concrete reachable state (one
migration applied on top of the zero record, for the tie registry). -/
theorem claim_C8_witness :
    wellFormedRegistry tieRegistry ∧
    versionInvariant (updateSchemaAfterMigration zeroRecord "1000000000_aa"
      1000000000 "Tie A" "0s" 3) :=
  ⟨by unfold wellFormedRegistry; decide,
    claim_C8_version_derivation tieRegistry _ (by unfold wellFormedRegistry; decide)
      (.afterMigration "1000000000_aa" 1000000000 "Tie A" "0s" 3 .zero (by decide))⟩

/-! ### Claim C10 -/

theorem splitFirstUnderscore_append (l s : List Char) :
    ∀ a b, splitFirstUnderscore l = some (a, b) →
      splitFirstUnderscore (l ++ s) = some (a, b ++ s) := by
  induction l with
  | nil => intro a b h; cases h
  | cons c cs ih =>
    intro a b h
    simp only [splitFirstUnderscore] at h
    rw [List.cons_append]
    simp only [splitFirstUnderscore]
    by_cases hc : c = '_'
    · rw [if_pos hc] at h
      rw [if_pos hc]
      injection h with h2
      cases h2
      rfl
    · rw [if_neg hc] at h
      rw [if_neg hc]
      cases hcs : splitFirstUnderscore cs with
      | none => rw [hcs] at h; cases h
      | some p =>
        rw [hcs] at h
        injection h with h2
        cases h2
        rw [ih p.1 p.2 (by rw [hcs])]
        rfl

theorem parseMigrationVersion_append {id : String} {v : Int} (suffix : String)
    (hp : parseMigrationVersion id = .ok v) :
    parseMigrationVersion (id ++ suffix) = .ok v := by
  unfold parseMigrationVersion at hp ⊢
  rw [String.data_append]
  cases hsp : splitFirstUnderscore id.data with
  | none => rw [hsp] at hp; cases hp
  | some p =>
    rw [hsp] at hp
    rw [splitFirstUnderscore_append id.data suffix.data p.1 p.2 (by rw [hsp])]
    exact hp

/-- Claim C10: after a successful (non-dry-run) rerun execution of an
applied migration whose version is derived from its identifier, the applied
set additionally contains the `_rerun`-suffixed key next to the original,
the current version is unchanged, and the suffixed identifier parses to the
same version. -/
theorem claim_C10_rerun_applied_entry (enableBackup : Bool) (env : Env)
    (plan : ExecutionPlan) (m : Migration) (s s2 : Store)
    (htype : plan.type = .rerun) (hmigs : plan.migrations = [m])
    (hmem : m.id ∈ (getSchemaVersion s).appliedMigrations)
    (hp : parseMigrationVersion m.id = .ok m.version)
    (hinv : versionInvariant (getSchemaVersion s))
    (hrun : executePlan enableBackup false env plan s = .ok s2) :
    (m.id ++ "_rerun") ∈ (getSchemaVersion s2).appliedMigrations ∧
    m.id ∈ (getSchemaVersion s2).appliedMigrations ∧
    (getSchemaVersion s2).currentVersion = (getSchemaVersion s).currentVersion ∧
    parseMigrationVersion (m.id ++ "_rerun") = .ok m.version := by
  unfold executePlan at hrun
  rw [htype] at hrun
  unfold executeRerun at hrun
  rw [hmigs] at hrun
  simp only [Bool.false_eq_true, if_false] at hrun
  split at hrun
  · cases hrun
  · split at hrun
    · cases hrun
    · split at hrun
      · cases hrun
      · split at hrun
        · cases hrun
        · injection hrun with hrun
          subst hrun
          have hcv : (getSchemaVersion s).currentVersion ≥ m.version := by
            rw [hinv.1]
            exact maxParsedVersion_ub hmem hp
          refine ⟨?_, ?_, ?_, parseMigrationVersion_append "_rerun" hp⟩
          · exact mem_insertSet.mpr (Or.inr rfl)
          · exact mem_insertSet.mpr (Or.inl hmem)
          · show (if m.version > (getSchemaVersion s).currentVersion then m.version
              else (getSchemaVersion s).currentVersion) = _
            rw [if_neg (by omega)]

/-- Witness for claim C10: a concrete successful rerun of an applied
migration. -/
theorem claim_C10_witness :
    executePlan true false ⟨fun _ => true, fun _ => true, fun _ => true, true, true, 9, "1s"⟩
      ⟨.rerun, 1700000000, 1700000000,
        [⟨"1700000000_test", 1700000000, [], "d", true, true, false, true⟩], 2⟩
      ⟨some ⟨1700000000, ["1700000000_test"],
        [⟨"1700000000_test", "d", 0, "0s", true, ""⟩], 0, .clean⟩, []⟩ =
      .ok ⟨some ⟨1700000000, ["1700000000_test", "1700000000_test_rerun"],
        [⟨"1700000000_test", "d", 0, "0s", true, ""⟩,
         ⟨"1700000000_test_rerun", "Rerun: d", 9, "1s", true, ""⟩], 9, .clean⟩, []⟩ ∧
    ("1700000000_test" ++ "_rerun") ∈
      (getSchemaVersion ⟨some ⟨1700000000, ["1700000000_test", "1700000000_test_rerun"],
        [⟨"1700000000_test", "d", 0, "0s", true, ""⟩,
         ⟨"1700000000_test_rerun", "Rerun: d", 9, "1s", true, ""⟩], 9, .clean⟩, []⟩).appliedMigrations :=
  ⟨by decide,
    (claim_C10_rerun_applied_entry true
      ⟨fun _ => true, fun _ => true, fun _ => true, true, true, 9, "1s"⟩
      ⟨.rerun, 1700000000, 1700000000,
        [⟨"1700000000_test", 1700000000, [], "d", true, true, false, true⟩], 2⟩
      ⟨"1700000000_test", 1700000000, [], "d", true, true, false, true⟩
      ⟨some ⟨1700000000, ["1700000000_test"],
        [⟨"1700000000_test", "d", 0, "0s", true, ""⟩], 0, .clean⟩, []⟩
      ⟨some ⟨1700000000, ["1700000000_test", "1700000000_test_rerun"],
        [⟨"1700000000_test", "d", 0, "0s", true, ""⟩,
         ⟨"1700000000_test_rerun", "Rerun: d", 9, "1s", true, ""⟩], 9, .clean⟩, []⟩
      rfl rfl (by decide) (by decide)
      ⟨by decide, by decide⟩ (by decide)).1⟩

/-! ### Claim C6 -/

/-- `pat` occurs as a contiguous substring of `hay`. -/
def strContains (hay pat : String) : Prop :=
  ∃ x y : String, hay = x ++ pat ++ y

set_option maxRecDepth 4000 in
theorem nonRerunnableMsg_contains (mid mdesc cli : String) :
    strContains (recoveryNonRerunnableMsg mid mdesc cli) "not marked as rerunnable" := by
  refine ⟨"database is in migrating state - migration " ++ mid ++ " (" ++
    mdesc ++ ") was interrupted. This migration is ",
    " and requires manual intervention. " ++
    "Options: 1. Run " ++ cli ++ " validate to check if migration " ++
    "completed successfully 2. Run " ++ cli ++ " force-clean to " ++
    "force reset (use with caution) 3. Restore from backup if available", ?_⟩
  apply String.ext
  simp [recoveryNonRerunnableMsg, String.data_append, List.append_assoc]

/-- Claim C6: when startup finds the catalog in migrating status and the
head of the pending plan is not rerunnable, `CheckAndRunStartupMigrations`
fails with a message containing "not marked as rerunnable" and leaves the
store — in particular the persisted catalog record and its migrating
status — unchanged. -/
theorem claim_C6_non_rerunnable_interrupted (r : MigrationRegistry)
    (opts : StartupOptions) (env : Env) (pi : List String) (s : Store)
    (plan : ExecutionPlan) (m : Migration) (rest : List Migration)
    (hstatus : (getSchemaVersion s).status = .migrating)
    (hplan : planUpgrade r (getSchemaVersion s) pi = .ok plan)
    (hmigs : plan.migrations = m :: rest)
    (hrr : m.rerunnable = false) :
    checkAndRunStartupMigrations r opts env pi s =
      .error (recoveryNonRerunnableMsg m.id m.description (cliNameOf opts), s) ∧
    strContains (recoveryNonRerunnableMsg m.id m.description (cliNameOf opts))
      "not marked as rerunnable" ∧
    (getSchemaVersion s).status = .migrating := by
  have hinit : initializeFreshDatabase s r env.now = s := by
    cases hs : s.schemaRecord with
    | none =>
      rw [show getSchemaVersion s = zeroRecord by simp [getSchemaVersion, hs]] at hstatus
      cases hstatus
    | some rec => simp [initializeFreshDatabase, hs]
  refine ⟨?_, nonRerunnableMsg_contains m.id m.description (cliNameOf opts), hstatus⟩
  unfold checkAndRunStartupMigrations
  rw [hinit, if_pos hstatus]
  unfold attemptMigrationRecovery
  rw [hplan]
  simp only [hmigs, hrr]
  rfl

/-- Witness for claim C6 — Scenario B: one registered non-rerunnable
migration, catalog in migrating status; startup fails and the store is
untouched. -/
theorem claim_C6_witness :
    ((getSchemaVersion ⟨some ⟨0, [], [], 0, .migrating⟩, []⟩).status = .migrating) ∧
    checkAndRunStartupMigrations tieRegistry ⟨true, false, false, ""⟩
        ⟨fun _ => true, fun _ => true, fun _ => true, true, true, 4, "0s"⟩
        ["1000000000_aa", "1000000000_bb"] ⟨some ⟨0, [], [], 0, .migrating⟩, []⟩ =
      .error (recoveryNonRerunnableMsg "1000000000_aa" "Tie A" "pebble-migrate",
        ⟨some ⟨0, [], [], 0, .migrating⟩, []⟩) := by
  refine ⟨rfl, ?_⟩
  have h := claim_C6_non_rerunnable_interrupted tieRegistry ⟨true, false, false, ""⟩
    ⟨fun _ => true, fun _ => true, fun _ => true, true, true, 4, "0s"⟩
    ["1000000000_aa", "1000000000_bb"] ⟨some ⟨0, [], [], 0, .migrating⟩, []⟩
    ⟨.upgrade, 0, 1000000000,
      [{ tieA with version := 1000000000 }, { tieB with version := 1000000000 }], 2⟩
    { tieA with version := 1000000000 } [{ tieB with version := 1000000000 }]
    rfl (by decide) rfl rfl
  exact h.1

/-! ### Claim C1 -/

theorem perm_pair {α : Type} {l : List α} {a b : α}
    (h : List.Perm l [a, b]) : l = [a, b] ∨ l = [b, a] := by
  have hlen : l.length = 2 := h.length_eq
  obtain ⟨x, y, rfl⟩ : ∃ x y, l = [x, y] := by
    cases l with
    | nil => simp at hlen
    | cons x t =>
      cases t with
      | nil => simp at hlen
      | cons y t2 =>
        cases t2 with
        | nil => exact ⟨x, y, rfl⟩
        | cons z t3 => simp at hlen
  by_cases hx : x = a
  · subst hx
    left
    rw [List.perm_singleton.mp h.cons_inv]
  · right
    have hmemx : x ∈ [a, b] := h.mem_iff.mp (by simp)
    have hxb : x = b := by
      rcases List.mem_cons.mp hmemx with h1 | h1
      · exact absurd h1 hx
      · simpa using h1
    subst hxb
    have hay : a ∈ [x, y] := h.mem_iff.mpr (by simp)
    have hya : a = y := by
      rcases List.mem_cons.mp hay with h1 | h1
      · exact absurd h1.symm hx
      · simpa using h1
    rw [← hya]

theorem getPending_of_kahnRun {r : MigrationRegistry} {applied pi : List String}
    {out : List Migration}
    (hne : (pendingList r applied).isEmpty = false)
    (hchk : checkDeps r (pendingList r applied) applied = .ok ())
    (hrun : kahnRun (pendingList r applied) applied
      (pi.filter (seedFilter (pendingList r applied) applied)) = .ok out) :
    getPendingMigrations r applied pi = .ok out := by
  unfold getPendingMigrations topologicalSort
  rw [hne, hchk, hrun]
  rfl

/-- Claim C1: for the Scenario C registry (first and second without
dependencies, third depending on second, fourth depending on first) and an
empty applied set, `GetPendingMigrations` emits first, second, third,
fourth — the Kahn order that always picks the ready migration of smallest
version — for every Go map-iteration order of the in-degree keys. -/
theorem claim_C1_pending_order (pi : List String)
    (hpi : List.Perm pi scenarioCIds) :
    registerAll [mThird, mFirst, mFourth, mSecond] = .ok scenarioCRegistry ∧
    getPendingMigrations scenarioCRegistry [] pi =
      .ok [mFirstV, mSecondV, mThirdV, mFourthV] := by
  refine ⟨rfl, ?_⟩
  have hfil : List.Perm (pi.filter (seedFilter (pendingList scenarioCRegistry []) []))
      ["1000000000_first", "2000000000_second"] := by
    have h1 := hpi.filter (seedFilter (pendingList scenarioCRegistry []) [])
    rw [show scenarioCIds.filter (seedFilter (pendingList scenarioCRegistry []) []) =
      ["1000000000_first", "2000000000_second"] from by decide] at h1
    exact h1
  rcases perm_pair hfil with h | h <;>
    · apply getPending_of_kahnRun (by decide) (by decide)
      rw [h]
      decide

/-- Witness for claim C1 at the identity map-iteration order. -/
theorem claim_C1_witness :
    List.Perm scenarioCIds scenarioCIds ∧
    getPendingMigrations scenarioCRegistry [] scenarioCIds =
      .ok [mFirstV, mSecondV, mThirdV, mFourthV] :=
  ⟨List.Perm.refl _, (claim_C1_pending_order scenarioCIds (List.Perm.refl _)).2⟩

end Migrate
